import Mathlib

/-!
Shallow embedding of the iterative lattice-refinement loop of
`iprPy/calculations/refine_structure_static/calc_refine_structure_static.py`
(`quick_a_Cij` and `calc_cij`), with the claims about it settled as theorems.

Conventions of the embedding:
* Python floats become `ℚ`; the claims are about control flow and exact
  arithmetic identities, not rounding.
* `calc_cij` runs an external LAMMPS simulation and then post-processes the
  extracted thermo arrays.  The loop `quick_a_Cij` sees `calc_cij` only as a
  map from the current cell to a result (or an exception), so the loop is
  embedded against an abstract evaluator `Box → Except Err CalcResult`;
  `calc_cij`'s own post-processing (lines 161-233 of the source) is embedded
  separately as a function of the extracted thermo data.
* All the `RuntimeError`s the source can raise become constructors of `Err`;
  an exception becomes an `Except.error` return value.
* The source's cells are `atomman` systems; the loop and `calc_cij` only ever
  read and write the box lengths `a`, `b`, `c` of orthorhombic boxes
  (`am.Box(a=..., b=..., c=...)`), so a cell is embedded as its three box
  lengths (the atom basis is opaque and passed through unchanged).
-/

namespace IprPy

/-- An orthorhombic `am.Box`: the three box lengths `a`, `b`, `c`.
Its `vects` in atomman are the 3×3 array `[[a,0,0],[0,b,0],[0,0,c]]`. -/
structure Box where
  a : ℚ
  b : ℚ
  c : ℚ
deriving DecidableEq

/-- The distinct `RuntimeError`s raised by `quick_a_Cij` and `calc_cij`. -/
inductive Err where
  /-- `'Divergence of box dimensions'` (quick_a_Cij, lines 121-126) -/
  | boxDivergence
  /-- `'Divergence: cohesive energy is 0'` (quick_a_Cij, line 128) -/
  | ecohZero
  /-- `'Failed to converge after 100 cycles'` (quick_a_Cij, line 138) -/
  | nonConvergence
  /-- `'Divergence of elastic constants to <= 0'` (calc_cij, line 206) -/
  | cijZero
  /-- `'singular C: ...'` (calc_cij, line 210) -/
  | singularC
  /-- `'Divergence of box dimensions to <= 0'` (calc_cij, line 227) -/
  | dimNonPositive
deriving DecidableEq

/-- 6×6 Voigt matrix of elastic constants. -/
abbrev Mat6 := Matrix (Fin 6) (Fin 6) ℚ

/-- 3×3 stress tensor. -/
abbrev Mat3 := Matrix (Fin 3) (Fin 3) ℚ

/-- The dict returned by `calc_cij` (line 233):
`{'C':C, 'stress':stress, 'ecoh':pe[0], 'cell_new':cell_new}`. -/
structure CalcResult where
  C : Mat6
  stress : Mat3
  ecoh : ℚ
  cell_new : Box

/-- numpy's default absolute tolerance `atol = 1e-8` used by `np.allclose`. -/
def np_atol : ℚ := 1 / 100000000

/-- numpy's `isclose(x, y, rtol, atol)` on scalars: `|x - y| <= atol + rtol*|y|`.
The source calls `np.allclose(..., rtol=tol)`, leaving `atol` at the numpy
default `1e-8`. -/
def isclose (x y rtol : ℚ) : Prop := |x - y| ≤ np_atol + rtol * |y|

instance (x y rtol : ℚ) : Decidable (isclose x y rtol) :=
  inferInstanceAs (Decidable (_ ≤ _))

/-- `np.allclose(u.vects, v.vects, rtol=rtol)` for orthorhombic boxes.
The six off-diagonal entries of both `vects` arrays are zero and
`|0 - 0| ≤ atol + rtol*|0|` always holds, so `allclose` on the 3×3 arrays
reduces to the three diagonal comparisons. -/
def boxAllclose (u v : Box) (rtol : ℚ) : Prop :=
  isclose u.a v.a rtol ∧ isclose u.b v.b rtol ∧ isclose u.c v.c rtol

instance (u v : Box) (rtol : ℚ) : Decidable (boxAllclose u v rtol) :=
  inferInstanceAs (Decidable (_ ∧ _ ∧ _))

/-- The `elif` chain of divergence tests of `quick_a_Cij` (lines 121-128),
reached only when neither convergence test fired: checks `a`, then `b`,
then `c` of `cell_new` against the initial cell's bounds, then whether the
cohesive energy is exactly `0.0`.  Returns the error to raise, if any. -/
def divergeCheck (cell cell_new : Box) (diverge_scale ecoh : ℚ) : Option Err :=
  if cell_new.a < cell.a / diverge_scale ∨ cell_new.a > cell.a * diverge_scale then
    some .boxDivergence
  else if cell_new.b < cell.b / diverge_scale ∨ cell_new.b > cell.b * diverge_scale then
    some .boxDivergence
  else if cell_new.c < cell.c / diverge_scale ∨ cell_new.c > cell.c * diverge_scale then
    some .boxDivergence
  else if ecoh = 0 then
    some .ecohZero
  else
    none

/-- The averaged box built in the two-point-oscillation branch (lines 111-113):
`am.Box(a=(cell_new.a+cell_old.a)/2, b=..., c=...)`. -/
def avgBox (cell_new cell_old : Box) : Box :=
  ⟨(cell_new.a + cell_old.a) / 2, (cell_new.b + cell_old.b) / 2,
   (cell_new.c + cell_old.c) / 2⟩

/-- The `for cycle in xrange(100)` loop of `quick_a_Cij` (lines 97-138),
as structural recursion on the remaining cycles (`fuel`).  `cell` is the
initial cell (the divergence bounds always reference it), `cur`/`old` are
`cell_current`/`cell_old`, and `calls` counts the evaluator (`calc_cij`)
calls made so far; the second component of the result is the final count.
Exhausting the fuel is the fall-through `raise` of line 138. -/
def refineLoop (E : Box → Except Err CalcResult) (cell : Box) (tol diverge_scale : ℚ) :
    ℕ → Box → Option Box → ℕ → Except Err CalcResult × ℕ
  | 0, _, _, calls => (.error .nonConvergence, calls)
  | fuel + 1, cur, old, calls =>
    match E cur with
    | .error e => (.error e, calls + 1)
    | .ok results =>
      let cn := results.cell_new
      if boxAllclose cn cur tol then
        (.ok results, calls + 1)
      else
        match (match old with
               | some o => if boxAllclose cn o tol then some o else none
               | none => none) with
        | some o =>
          -- oscillation branch: re-evaluate once at the averaged cell
          (match E (avgBox cn o) with
           | .error e => (.error e, calls + 2)
           | .ok results2 => (.ok results2, calls + 2))
        | none =>
          match divergeCheck cell cn diverge_scale results.ecoh with
          | some err => (.error err, calls + 1)
          | none => refineLoop E cell tol diverge_scale fuel cn (some cur) (calls + 1)

/-- `quick_a_Cij` (lines 76-138), against an abstract evaluator `E` standing
for `calc_cij` applied to the fixed lammps/potential/pressure arguments.
`cell_current` starts as a (deep)copy of `cell`, `cell_old` as `None`, and
the loop runs at most 100 cycles.  Returns the result (or the raised error)
together with the number of evaluator calls performed. -/
def quick_a_Cij (E : Box → Except Err CalcResult) (cell : Box)
    (tol diverge_scale : ℚ) : Except Err CalcResult × ℕ :=
  refineLoop E cell tol diverge_scale 100 cell none 0

/-- Default `tol = 1e-10` of `quick_a_Cij`. -/
def default_tol : ℚ := 1 / 10000000000

/-! ### The evaluator `calc_cij` (lines 140-233)

The LAMMPS run itself (lines 143-154) is external I/O; what the source then
does (lines 161-233) is a pure function of the thermo columns extracted from
the run's output.  `data.finds(...)` yields, for each column, 13 values:
index 0 is the undeformed baseline and indices `2*i+1`, `2*i+2` are the
positive and negative delta perturbation pair of strain direction `i` (`i = 0..5` for
xx, yy, zz, yz, xz, xy).  Unit conversion (`uc.set_in_units`) is an external
linear rescaling; the embedding takes the values already in working units. -/

/-- The thermo columns extracted from the LAMMPS output (lines 163-177),
each a 13-entry array; only positions 0-12 are ever read, so the columns are
embedded as position-indexed values. -/
structure ThermoData where
  lx : ℕ → ℚ
  ly : ℕ → ℚ
  lz : ℕ → ℚ
  xy : ℕ → ℚ
  xz : ℕ → ℚ
  yz : ℕ → ℚ
  pxx : ℕ → ℚ
  pyy : ℕ → ℚ
  pzz : ℕ → ℚ
  pxy : ℕ → ℚ
  pxz : ℕ → ℚ
  pyz : ℕ → ℚ
  peatom : ℕ → ℚ

/-- The six non-zero strain values (lines 180-185), as the array entry at
position `i = 0..5`. -/
def strains (d : ThermoData) : ℕ → ℚ
  | 0 => (d.lx 2 - d.lx 1) / d.lx 0
  | 1 => (d.ly 4 - d.ly 3) / d.ly 0
  | 2 => (d.lz 6 - d.lz 5) / d.lz 0
  | 3 => (d.yz 8 - d.yz 7) / d.lz 0
  | 4 => (d.xz 10 - d.xz 9) / d.lz 0
  | 5 => (d.xy 12 - d.xy 11) / d.ly 0
  | _ => 0

/-- Component `j` of the stress difference across the positive/negative
delta pair of strain direction `i` (lines 190-195). -/
def delta_stress (d : ThermoData) (i : ℕ) : ℕ → ℚ
  | 0 => d.pxx (2 * i + 1) - d.pxx (2 * i + 2)
  | 1 => d.pyy (2 * i + 1) - d.pyy (2 * i + 2)
  | 2 => d.pzz (2 * i + 1) - d.pzz (2 * i + 2)
  | 3 => d.pyz (2 * i + 1) - d.pyz (2 * i + 2)
  | 4 => d.pxz (2 * i + 1) - d.pxz (2 * i + 2)
  | 5 => d.pxy (2 * i + 1) - d.pxy (2 * i + 2)
  | _ => 0

/-- The raw stiffness estimate `cij[i] = delta_stress / strains[i]`
(lines 188-197), before symmetrization. -/
def rawCij (d : ThermoData) : Mat6 :=
  Matrix.of fun i j => delta_stress d i.val j.val / strains d i.val

/-- The symmetrization loop (lines 199-201):
`for i: for j in range(i): cij[i,j] = cij[j,i] = (cij[i,j]+cij[j,i])/2`.
Each unordered pair `{i,j}` with `i ≠ j` is written exactly once, from the
original values (no earlier write of the loop is ever read), and the diagonal
is untouched; since `(M i i + M i i)/2 = M i i`, the loop's effect is the
uniform closed form below. -/
def symmetrize (M : Mat6) : Mat6 :=
  Matrix.of fun i j => (M i j + M j i) / 2

/-- `np.allclose(C.Cij, 0.0)` (line 205): componentwise
`|x - 0| ≤ atol + rtol*|0| = atol` with the numpy defaults. -/
def allcloseZero (M : Mat6) : Prop := ∀ i j, |M i j| ≤ np_atol

instance (M : Mat6) : Decidable (allcloseZero M) :=
  inferInstanceAs (Decidable (∀ i j, |M i j| ≤ np_atol))

/-- `C.Sij` (line 208): the compliance matrix, atomman's matrix inverse of the
6×6 stiffness matrix; inversion of a singular matrix raises (caught at
line 209 and re-raised as `'singular C'`).  A square rational matrix is
invertible iff its determinant is nonzero, in which case the inverse is
`det⁻¹ • adjugate`. -/
def inv6 (M : Mat6) : Option Mat6 :=
  if M.det = 0 then none else some (M.det⁻¹ • M.adjugate)

/-- Entry `(i, j)` of the baseline pressure tensor
`[[pxx[0],pxy[0],pxz[0]], [pxy[0],pyy[0],pyz[0]], [pxz[0],pyz[0],pzz[0]]]`. -/
def pressure0 (d : ThermoData) : ℕ → ℕ → ℚ
  | 0, 0 => d.pxx 0
  | 0, 1 => d.pxy 0
  | 0, 2 => d.pxz 0
  | 1, 0 => d.pxy 0
  | 1, 1 => d.pyy 0
  | 1, 2 => d.pyz 0
  | 2, 0 => d.pxz 0
  | 2, 1 => d.pyz 0
  | 2, 2 => d.pzz 0
  | _, _ => 0

/-- The baseline stress state (lines 214-216): `-1 *` the baseline pressure
tensor. -/
def stress0 (d : ThermoData) : Mat3 :=
  Matrix.of fun i j => -(pressure0 d i.val j.val)

/-- The new trial box (lines 218-224): effective stress
`s_jj = stress[j,j] + p_jj` and `new_dim = old_dim / (S[i]·s + 1)` for each
axis `i`, using rows 0-2 of the compliance matrix `S`. -/
def new_dims (d : ThermoData) (cell : Box) (p_xx p_yy p_zz : ℚ) (S : Mat6) : Box :=
  let s_xx := stress0 d 0 0 + p_xx
  let s_yy := stress0 d 1 1 + p_yy
  let s_zz := stress0 d 2 2 + p_zz
  ⟨cell.a / (S 0 0 * s_xx + S 0 1 * s_yy + S 0 2 * s_zz + 1),
   cell.b / (S 1 0 * s_xx + S 1 1 * s_yy + S 1 2 * s_zz + 1),
   cell.c / (S 2 0 * s_xx + S 2 1 * s_yy + S 2 2 * s_zz + 1)⟩

/-- The post-processing of `calc_cij` (lines 180-233) as a function of the
extracted thermo data: build and symmetrize the raw stiffness matrix, reject
an (absolutely-close-to-)all-zero matrix, invert it (rejecting a singular
matrix), form the baseline stress, propose the new box, reject non-positive
box lengths, and return `{'C', 'stress', 'ecoh', 'cell_new'}`.  The returned
`cell_new` is a deep copy of `cell` whose box is set to the new lengths
(lines 229-231); only its box is modelled here. -/
def calc_cij (d : ThermoData) (cell : Box) (p_xx p_yy p_zz : ℚ) :
    Except Err CalcResult :=
  let cij := symmetrize (rawCij d)
  if allcloseZero cij then
    .error .cijZero
  else
    match inv6 cij with
    | none => .error .singularC
    | some S =>
      let nb := new_dims d cell p_xx p_yy p_zz S
      if nb.a ≤ 0 ∨ nb.b ≤ 0 ∨ nb.c ≤ 0 then
        .error .dimNonPositive
      else
        .ok { C := cij, stress := stress0 d, ecoh := d.peatom 0, cell_new := nb }

/-! ### Object-identity instrumentation of the loop

The source manipulates mutable Python objects: `deepcopy` creates a fresh
object, and `cell_current.box_set(vects=..., scale=True)` (line 114) changes
the box of an *existing* object in place.  To settle claims about in-place
mutation, the loop is re-embedded with Python object identities made
explicit: a cell is a (identity, box) pair, every `deepcopy` allocates a
fresh identity from a counter, and every `box_set` on an already-existing
object is recorded as a mutation event.  Apart from this bookkeeping the
definition is the same translation of lines 97-138 as `refineLoop`. -/

/-- A Python cell object: an object identity plus its current box. -/
structure CellObj where
  oid : ℕ
  box : Box
deriving DecidableEq

/-- A recorded in-place `box_set` on an existing object: which object, and
its box before and after. -/
structure MutEvent where
  oid : ℕ
  oldBox : Box
  newBox : Box
deriving DecidableEq

/-- The loop of `quick_a_Cij` with object identities: `nextId` is the next
fresh identity, `muts` the in-place mutation events so far.  The `cell_new`
returned by `calc_cij` is `deepcopy(cell)` with its box set before the copy
is ever shared (lines 229-231), so it enters the loop as a fresh object.
The oscillation branch performs `cell_current.box_set(...)` (line 114): the
box of the existing object `cur` changes in place, which is recorded. -/
def refineLoopM (E : Box → Except Err CalcResult) (cell : Box) (tol diverge_scale : ℚ) :
    ℕ → CellObj → Option CellObj → ℕ → ℕ → List MutEvent →
    Except Err CalcResult × ℕ × List MutEvent
  | 0, _, _, _, calls, muts => (.error .nonConvergence, calls, muts)
  | fuel + 1, cur, old, nextId, calls, muts =>
    match E cur.box with
    | .error e => (.error e, calls + 1, muts)
    | .ok results =>
      let cellNew : CellObj := ⟨nextId, results.cell_new⟩
      if boxAllclose cellNew.box cur.box tol then
        (.ok results, calls + 1, muts)
      else
        match (match old with
               | some o => if boxAllclose cellNew.box o.box tol then some o else none
               | none => none) with
        | some o =>
          let avg := avgBox cellNew.box o.box
          -- line 114: cell_current.box_set(vects=box.vects, scale=True)
          (match E avg with
           | .error e => (.error e, calls + 2, muts ++ [⟨cur.oid, cur.box, avg⟩])
           | .ok results2 => (.ok results2, calls + 2, muts ++ [⟨cur.oid, cur.box, avg⟩]))
        | none =>
          match divergeCheck cell cellNew.box diverge_scale results.ecoh with
          | some err => (.error err, calls + 1, muts)
          | none =>
            refineLoopM E cell tol diverge_scale fuel cellNew (some cur)
              (nextId + 1) (calls + 1) muts

/-- `quick_a_Cij` with object identities.  The caller's cell is object `0`;
`cell_current = deepcopy(cell)` (line 94) makes the fresh object `1`, and
identities from `2` on are allocated to the evaluator's fresh candidates.
Returns the result, the evaluator call count, and the in-place mutation
events. -/
def quick_a_CijM (E : Box → Except Err CalcResult) (cell : Box)
    (tol diverge_scale : ℚ) : Except Err CalcResult × ℕ × List MutEvent :=
  refineLoopM E cell tol diverge_scale 100 ⟨1, cell⟩ none 2 0 []

/-! ### Concrete data used by the witnesses and counterexamples -/

/-- The unit box. -/
def boxOne : Box := ⟨1, 1, 1⟩

/-- A constant fixed-point result: the proposed cell is `boxOne` itself. -/
def resultConst : CalcResult := ⟨0, 0, 1, boxOne⟩

/-- An evaluator that always proposes `boxOne` back. -/
def evalConst : Box → Except Err CalcResult := fun _ => .ok resultConst

/-- A result with cohesive energy exactly `0` whose proposed cell is the
current cell `boxOne` back again. -/
def resultZeroE : CalcResult := ⟨0, 0, 0, boxOne⟩

/-- An evaluator reporting cohesive energy `0` together with an
already-converged geometry. -/
def evalZeroE : Box → Except Err CalcResult := fun _ => .ok resultZeroE

/-- The second box of the oscillation scenario. -/
def boxB : Box := ⟨2, 1, 1⟩

/-- Oscillation scenario: the result proposing `boxB`. -/
def resultToB : CalcResult := ⟨0, 0, 1, boxB⟩

/-- Oscillation scenario: the result proposing `boxOne`. -/
def resultToA : CalcResult := ⟨0, 0, 1, boxOne⟩

/-- A scripted evaluator alternating between the two fixed cells `boxOne`
and `boxB`: evaluating `boxOne` proposes `boxB` and evaluating `boxB`
proposes `boxOne`. -/
def evalOsc : Box → Except Err CalcResult := fun bx =>
  if bx = boxB then .ok resultToA else .ok resultToB

/-- An evaluator whose proposals drift by `1/1000` in `a` every call:
never close to the previous two iterates, never out of bounds in the first
100 cycles, and never reporting zero energy. -/
def evalDrift : Box → Except Err CalcResult := fun bx =>
  .ok ⟨0, 0, 1, ⟨bx.a + 1 / 1000, bx.b, bx.c⟩⟩

/-- The iterates of `evalDrift` started at `boxOne`. -/
def driftSeq : ℕ → Box := fun k => ⟨1 + (k : ℚ) / 1000, 1, 1⟩

/-- The results of `evalDrift` along `driftSeq`. -/
def driftRes : ℕ → CalcResult := fun k => ⟨0, 0, 1, driftSeq (k + 1)⟩

/-- A result proposing a box far outside the divergence bounds of `boxOne`. -/
def resultDiverge : CalcResult := ⟨0, 0, 1, ⟨10, 1, 1⟩⟩

/-- An evaluator proposing a box far outside the divergence bounds. -/
def evalDiverge : Box → Except Err CalcResult := fun _ => .ok resultDiverge

/-- An evaluator that fails immediately. -/
def evalErr : Box → Except Err CalcResult := fun _ => .error .cijZero

/-- Geometry thermo column `(1,0,1,0,...)` (1 at even positions): every
strain in `strains` comes out as `(1 - 0) / 1 = 1`. -/
def altCol : ℕ → ℚ := fun j => if j % 2 = 0 then 1 else 0

/-- Pressure column that is `1` at index `n` and `0` elsewhere. -/
def unitInCol (n : ℕ) : ℕ → ℚ := fun j => if j = n then 1 else 0

/-- Thermo data whose raw stiffness estimate is the zero matrix. -/
def dataZero : ThermoData :=
  { lx := altCol, ly := altCol, lz := altCol, xy := altCol, xz := altCol,
    yz := altCol, pxx := fun _ => 0, pyy := fun _ => 0, pzz := fun _ => 0,
    pxy := fun _ => 0, pxz := fun _ => 0, pyz := fun _ => 0,
    peatom := fun _ => 0 }

/-- Thermo data whose symmetrized stiffness matrix is nonzero but singular
(only the `(0,0)` entry is nonzero). -/
def dataSingular : ThermoData :=
  { dataZero with pxx := unitInCol 1 }

/-- Thermo data whose symmetrized stiffness matrix is the identity and whose
baseline pressures vanish. -/
def dataId : ThermoData :=
  { dataZero with
    pxx := unitInCol 1, pyy := unitInCol 3, pzz := unitInCol 5,
    pyz := unitInCol 7, pxz := unitInCol 9, pxy := unitInCol 11 }

/-- A result whose cohesive energy is `0` and whose proposed cell `boxB` is
neither close to `boxOne` nor out of its divergence bounds. -/
def resultZeroFar : CalcResult := ⟨0, 0, 0, boxB⟩

/-- An evaluator reporting cohesive energy `0` with a non-converged,
non-divergent geometry. -/
def evalZeroFar : Box → Except Err CalcResult := fun _ => .ok resultZeroFar

/-! ## Helper lemmas -/

theorem np_atol_nonneg : (0 : ℚ) ≤ np_atol := by norm_num [np_atol]

theorem boxAllclose_self (u : Box) (rtol : ℚ) (h : 0 ≤ rtol) : boxAllclose u u rtol := by
  refine ⟨?_, ?_, ?_⟩ <;>
  · simp only [isclose, sub_self, abs_zero]
    have ha := np_atol_nonneg
    nlinarith [mul_nonneg h (abs_nonneg u.a), mul_nonneg h (abs_nonneg u.b),
      mul_nonneg h (abs_nonneg u.c)]

/-- Refuting `np.allclose` through its first component. -/
theorem not_boxAllclose_left {u v : Box} {rtol : ℚ} (h : ¬ isclose u.a v.a rtol) :
    ¬ boxAllclose u v rtol := fun hc => h hc.1

theorem not_isclose_2_1 : ¬ isclose 2 1 default_tol := by
  intro h
  rw [isclose, abs_of_nonneg (by norm_num : (0:ℚ) ≤ 2 - 1),
      abs_of_nonneg (by norm_num : (0:ℚ) ≤ 1)] at h
  norm_num [np_atol, default_tol] at h

theorem not_isclose_1_2 : ¬ isclose 1 2 default_tol := by
  intro h
  rw [isclose, abs_of_nonpos (by norm_num : (1:ℚ) - 2 ≤ 0),
      abs_of_nonneg (by norm_num : (0:ℚ) ≤ 2)] at h
  norm_num [np_atol, default_tol] at h

theorem not_isclose_10_1 : ¬ isclose 10 1 default_tol := by
  intro h
  rw [isclose, abs_of_nonneg (by norm_num : (0:ℚ) ≤ 10 - 1),
      abs_of_nonneg (by norm_num : (0:ℚ) ≤ 1)] at h
  norm_num [np_atol, default_tol] at h

theorem avgBox_self (u : Box) : avgBox u u = u := by
  cases u
  simp only [avgBox, Box.mk.injEq]
  exact ⟨by ring, by ring, by ring⟩

theorem divergeCheck_eq_none {cell cn : Box} {ds e : ℚ}
    (ha : ¬(cn.a < cell.a / ds ∨ cn.a > cell.a * ds))
    (hb : ¬(cn.b < cell.b / ds ∨ cn.b > cell.b * ds))
    (hc : ¬(cn.c < cell.c / ds ∨ cn.c > cell.c * ds))
    (he : ¬ e = 0) : divergeCheck cell cn ds e = none := by
  rw [divergeCheck, if_neg ha, if_neg hb, if_neg hc, if_neg he]

theorem divergeCheck_boxDivergence {cell cn : Box} {ds e : ℚ}
    (h : (cn.a < cell.a / ds ∨ cn.a > cell.a * ds) ∨
         (cn.b < cell.b / ds ∨ cn.b > cell.b * ds) ∨
         (cn.c < cell.c / ds ∨ cn.c > cell.c * ds)) :
    divergeCheck cell cn ds e = some .boxDivergence := by
  rw [divergeCheck]
  by_cases h1 : cn.a < cell.a / ds ∨ cn.a > cell.a * ds
  · rw [if_pos h1]
  · rw [if_neg h1]
    by_cases h2 : cn.b < cell.b / ds ∨ cn.b > cell.b * ds
    · rw [if_pos h2]
    · rw [if_neg h2, if_pos ((h.resolve_left h1).resolve_left h2)]

/-- One unfolding of the loop through the oscillation branch. -/
theorem refineLoop_osc_step (E : Box → Except Err CalcResult) (cell : Box)
    (tol ds : ℚ) (fuel : ℕ) (cur o : Box) (calls : ℕ) (r r2 : CalcResult)
    (hE : E cur = .ok r) (hA : ¬ boxAllclose r.cell_new cur tol)
    (hB : boxAllclose r.cell_new o tol)
    (hE2 : E (avgBox r.cell_new o) = .ok r2) :
    refineLoop E cell tol ds (fuel + 1) cur (some o) calls = (.ok r2, calls + 2) := by
  rw [refineLoop]
  simp only [hE]
  rw [if_neg hA, if_pos hB]
  simp only [hE2]

/-- One unfolding of the loop through the fall-through (update) branch. -/
theorem refineLoop_cont_step (E : Box → Except Err CalcResult) (cell : Box)
    (tol ds : ℚ) (fuel : ℕ) (cur : Box) (old : Option Box) (calls : ℕ) (r : CalcResult)
    (hE : E cur = .ok r) (hA : ¬ boxAllclose r.cell_new cur tol)
    (hB : ∀ o, old = some o → ¬ boxAllclose r.cell_new o tol)
    (hD : divergeCheck cell r.cell_new ds r.ecoh = none) :
    refineLoop E cell tol ds (fuel + 1) cur old calls =
      refineLoop E cell tol ds fuel r.cell_new (some cur) (calls + 1) := by
  rw [refineLoop]
  simp only [hE]
  rw [if_neg hA]
  cases old with
  | none => simp only [hD]
  | some o => simp only [if_neg (hB o rfl), hD]

/-- Each cycle of the loop makes one evaluator call, except the oscillation
cycle which makes two and stops: with `fuel` cycles left, at most `fuel + 1`
further calls happen. -/
theorem refineLoop_calls_le (E : Box → Except Err CalcResult) (cell : Box) (tol ds : ℚ) :
    ∀ (fuel : ℕ) (cur : Box) (old : Option Box) (calls : ℕ),
      (refineLoop E cell tol ds fuel cur old calls).2 ≤ calls + fuel + 1 := by
  intro fuel
  induction fuel with
  | zero =>
    intro cur old calls
    rw [refineLoop]
    show calls ≤ calls + 0 + 1
    omega
  | succ fuel ih =>
    intro cur old calls
    rw [refineLoop]
    rcases hE : E cur with e | results
    · simp only [hE]
      omega
    · simp only [hE]
      by_cases hA : boxAllclose results.cell_new cur tol
      · rw [if_pos hA]
        show calls + 1 ≤ calls + (fuel + 1) + 1
        omega
      · rw [if_neg hA]
        rcases old with - | o
        · cases hD : divergeCheck cell results.cell_new ds results.ecoh with
          | some err =>
            simp only [hD]
            omega
          | none =>
            simp only [hD]
            exact (ih results.cell_new (some cur) (calls + 1)).trans (by omega)
        · by_cases hB : boxAllclose results.cell_new o tol
          · simp only [if_pos hB]
            rcases hE2 : E (avgBox results.cell_new o) with e | r2 <;>
            · simp only [hE2]
              omega
          · simp only [if_neg hB]
            cases hD : divergeCheck cell results.cell_new ds results.ecoh with
            | some err =>
              simp only [hD]
              omega
            | none =>
              simp only [hD]
              exact (ih results.cell_new (some cur) (calls + 1)).trans (by omega)

/-- The only mutation event the loop can ever record is the single `box_set`
of the oscillation branch, which stops the loop: at most one event is added
to the trace. -/
theorem refineLoopM_muts_le (E : Box → Except Err CalcResult) (cell : Box) (tol ds : ℚ) :
    ∀ (fuel : ℕ) (cur : CellObj) (old : Option CellObj) (nextId calls : ℕ)
      (muts : List MutEvent),
      ((refineLoopM E cell tol ds fuel cur old nextId calls muts).2.2).length ≤
        muts.length + 1 := by
  intro fuel
  induction fuel with
  | zero =>
    intro cur old nextId calls muts
    rw [refineLoopM]
    show muts.length ≤ muts.length + 1
    omega
  | succ fuel ih =>
    intro cur old nextId calls muts
    rw [refineLoopM]
    rcases hE : E cur.box with e | results
    · simp only [hE]
      omega
    · simp only [hE]
      by_cases hA : boxAllclose results.cell_new cur.box tol
      · rw [if_pos hA]
        show muts.length ≤ muts.length + 1
        omega
      · rw [if_neg hA]
        rcases old with - | o
        · cases hD : divergeCheck cell results.cell_new ds results.ecoh with
          | some err =>
            simp only [hD]
            omega
          | none =>
            simp only [hD]
            exact ih _ _ _ _ _
        · by_cases hB : boxAllclose results.cell_new o.box tol
          · simp only [if_pos hB]
            rcases hE2 : E (avgBox results.cell_new o.box) with e | r2 <;>
            · simp only [hE2, List.length_append, List.length_cons, List.length_nil]
              omega
          · simp only [if_neg hB]
            cases hD : divergeCheck cell results.cell_new ds results.ecoh with
            | some err =>
              simp only [hD]
              omega
            | none =>
              simp only [hD]
              exact ih _ _ _ _ _

/-- The symmetrized stiffness matrix of `dataId` is the identity. -/
theorem dataId_symmetrize : symmetrize (rawCij dataId) = 1 := by
  ext i j
  fin_cases i <;> fin_cases j <;>
  · simp only [symmetrize, rawCij, Matrix.of_apply, Matrix.one_apply]
    norm_num [delta_stress, strains, dataId, dataZero, unitInCol, altCol, Fin.ext_iff]

theorem dataZero_allcloseZero : allcloseZero (symmetrize (rawCij dataZero)) := by
  intro i j
  fin_cases i <;> fin_cases j <;>
  · simp only [symmetrize, rawCij, Matrix.of_apply]
    norm_num [delta_stress, strains, dataZero, altCol, np_atol]

theorem dataSingular_not_allcloseZero : ¬ allcloseZero (symmetrize (rawCij dataSingular)) := by
  intro h
  have h2 := h 0 0
  simp only [symmetrize, rawCij, Matrix.of_apply] at h2
  norm_num [delta_stress, strains, dataSingular, dataZero, unitInCol, altCol, np_atol] at h2

theorem dataSingular_det_zero : (symmetrize (rawCij dataSingular)).det = 0 := by
  apply Matrix.det_eq_zero_of_row_eq_zero 1
  intro j
  fin_cases j <;>
  · simp only [symmetrize, rawCij, Matrix.of_apply]
    norm_num [delta_stress, strains, dataSingular, dataZero, unitInCol, altCol]

theorem dataId_not_allcloseZero : ¬ allcloseZero (symmetrize (rawCij dataId)) := by
  intro h
  have h2 := h 0 0
  rw [dataId_symmetrize, Matrix.one_apply_eq] at h2
  norm_num [np_atol] at h2

theorem inv6_one : inv6 (1 : Mat6) = some 1 := by
  rw [inv6, if_neg (by rw [Matrix.det_one]; norm_num)]
  rw [Matrix.det_one, Matrix.adjugate_one, inv_one, one_smul]

/-! ## Claims -/

/-- C1: if the evaluator's very first result returns a `next_cell` whose box
vectors match the current (initial) cell's box vectors within the relative
tolerance (the `np.allclose` test of line 104), `quick_a_Cij` returns after
exactly one evaluator call, and the value returned is that first call's
result. -/
theorem C1_single_point_convergence (E : Box → Except Err CalcResult) (cell : Box)
    (tol ds : ℚ) (r : CalcResult)
    (hE : E cell = .ok r) (hA : boxAllclose r.cell_new cell tol) :
    quick_a_Cij E cell tol ds = (.ok r, 1) := by
  rw [quick_a_Cij, show (100 : ℕ) = 99 + 1 from rfl, refineLoop]
  simp only [hE]
  rw [if_pos hA]

/-- Witness for C1: the constant evaluator proposing the current cell back
converges in one call. -/
theorem C1_single_point_convergence_witness :
    evalConst boxOne = .ok resultConst ∧
    boxAllclose resultConst.cell_new boxOne default_tol ∧
    quick_a_Cij evalConst boxOne default_tol 3 = (.ok resultConst, 1) := by
  have h1 : evalConst boxOne = .ok resultConst := rfl
  have h2 : boxAllclose resultConst.cell_new boxOne default_tol :=
    boxAllclose_self boxOne default_tol (by norm_num [default_tol])
  exact ⟨h1, h2, C1_single_point_convergence evalConst boxOne default_tol 3 resultConst h1 h2⟩

/-- C3 counterexample: a result with cohesive energy exactly `0` whose
geometry already matches the current cell makes `quick_a_Cij` return that
result normally — no error of any kind is raised, contradicting the claim
that a zero cohesive energy always raises `DivergenceError` regardless of
geometry matching (the `ecoh` test of line 127 sits after both convergence
tests in the `elif` chain, so it is never reached here). -/
theorem C3_zero_energy_counterexample :
    resultZeroE.ecoh = 0 ∧
    quick_a_Cij evalZeroE boxOne default_tol 3 = (.ok resultZeroE, 1) := by
  refine ⟨rfl, ?_⟩
  have h2 : boxAllclose resultZeroE.cell_new boxOne default_tol :=
    boxAllclose_self boxOne default_tol (by norm_num [default_tol])
  rw [quick_a_Cij, show (100 : ℕ) = 99 + 1 from rfl, refineLoop]
  simp only [evalZeroE]
  rw [if_pos h2]

/-- C3 as amended: in an iteration where neither convergence test fires and
none of the three box-dimension divergence tests triggers, a cohesive energy
of exactly `0` makes the loop raise the zero-energy `DivergenceError` after
that iteration's single evaluator call. -/
theorem C3_zero_energy_amended (E : Box → Except Err CalcResult) (cell : Box)
    (tol ds : ℚ) (fuel : ℕ) (cur : Box) (old : Option Box) (calls : ℕ) (r : CalcResult)
    (hE : E cur = .ok r)
    (hA : ¬ boxAllclose r.cell_new cur tol)
    (hB : ∀ o, old = some o → ¬ boxAllclose r.cell_new o tol)
    (ha : ¬(r.cell_new.a < cell.a / ds ∨ r.cell_new.a > cell.a * ds))
    (hb : ¬(r.cell_new.b < cell.b / ds ∨ r.cell_new.b > cell.b * ds))
    (hc : ¬(r.cell_new.c < cell.c / ds ∨ r.cell_new.c > cell.c * ds))
    (he : r.ecoh = 0) :
    refineLoop E cell tol ds (fuel + 1) cur old calls = (.error .ecohZero, calls + 1) := by
  have hD : divergeCheck cell r.cell_new ds r.ecoh = some .ecohZero := by
    rw [divergeCheck, if_neg ha, if_neg hb, if_neg hc, if_pos he]
  rw [refineLoop]
  simp only [hE]
  rw [if_neg hA]
  cases old with
  | none => simp only [hD]
  | some o => simp only [if_neg (hB o rfl), hD]

/-- Witness for the amended C3: zero cohesive energy with a non-matching,
in-bounds geometry raises the zero-energy error on the first cycle. -/
theorem C3_zero_energy_amended_witness :
    evalZeroFar boxOne = .ok resultZeroFar ∧
    ¬ boxAllclose resultZeroFar.cell_new boxOne default_tol ∧
    resultZeroFar.ecoh = 0 ∧
    refineLoop evalZeroFar boxOne default_tol 3 100 boxOne none 0 =
      (.error .ecohZero, 1) := by
  have h1 : evalZeroFar boxOne = .ok resultZeroFar := rfl
  have h2 : ¬ boxAllclose resultZeroFar.cell_new boxOne default_tol :=
    not_boxAllclose_left not_isclose_2_1
  have ha : ¬(resultZeroFar.cell_new.a < boxOne.a / 3 ∨
      resultZeroFar.cell_new.a > boxOne.a * 3) := by
    show ¬((2 : ℚ) < 1 / 3 ∨ (2 : ℚ) > 1 * 3)
    norm_num
  have hb : ¬(resultZeroFar.cell_new.b < boxOne.b / 3 ∨
      resultZeroFar.cell_new.b > boxOne.b * 3) := by
    show ¬((1 : ℚ) < 1 / 3 ∨ (1 : ℚ) > 1 * 3)
    norm_num
  have hc : ¬(resultZeroFar.cell_new.c < boxOne.c / 3 ∨
      resultZeroFar.cell_new.c > boxOne.c * 3) := by
    show ¬((1 : ℚ) < 1 / 3 ∨ (1 : ℚ) > 1 * 3)
    norm_num
  refine ⟨h1, h2, rfl, ?_⟩
  rw [show (100 : ℕ) = 99 + 1 from rfl]
  exact C3_zero_energy_amended evalZeroFar boxOne default_tol 3 99 boxOne none 0
    resultZeroFar h1 h2 (fun o h => nomatch h) ha hb hc rfl

/-- C5: in an iteration where neither convergence test fires, a `next_cell`
with any of `a`, `b`, `c` outside the bounds derived from the *initial*
cell's dimensions (not the current iterate's) raises the box-dimension
`DivergenceError` at that iteration — in particular already on the first
cycle, long before the 100-cycle cap. -/
theorem C5_divergence_detection :
    (∀ (E : Box → Except Err CalcResult) (cell : Box) (tol ds : ℚ) (fuel : ℕ)
       (cur : Box) (old : Option Box) (calls : ℕ) (r : CalcResult),
       E cur = .ok r →
       ¬ boxAllclose r.cell_new cur tol →
       (∀ o, old = some o → ¬ boxAllclose r.cell_new o tol) →
       ((r.cell_new.a < cell.a / ds ∨ r.cell_new.a > cell.a * ds) ∨
        (r.cell_new.b < cell.b / ds ∨ r.cell_new.b > cell.b * ds) ∨
        (r.cell_new.c < cell.c / ds ∨ r.cell_new.c > cell.c * ds)) →
       refineLoop E cell tol ds (fuel + 1) cur old calls =
         (.error .boxDivergence, calls + 1)) ∧
    (∀ (E : Box → Except Err CalcResult) (cell : Box) (tol ds : ℚ) (r : CalcResult),
       E cell = .ok r →
       ¬ boxAllclose r.cell_new cell tol →
       ((r.cell_new.a < cell.a / ds ∨ r.cell_new.a > cell.a * ds) ∨
        (r.cell_new.b < cell.b / ds ∨ r.cell_new.b > cell.b * ds) ∨
        (r.cell_new.c < cell.c / ds ∨ r.cell_new.c > cell.c * ds)) →
       quick_a_Cij E cell tol ds = (.error .boxDivergence, 1)) := by
  have step : ∀ (E : Box → Except Err CalcResult) (cell : Box) (tol ds : ℚ) (fuel : ℕ)
      (cur : Box) (old : Option Box) (calls : ℕ) (r : CalcResult),
      E cur = .ok r →
      ¬ boxAllclose r.cell_new cur tol →
      (∀ o, old = some o → ¬ boxAllclose r.cell_new o tol) →
      ((r.cell_new.a < cell.a / ds ∨ r.cell_new.a > cell.a * ds) ∨
       (r.cell_new.b < cell.b / ds ∨ r.cell_new.b > cell.b * ds) ∨
       (r.cell_new.c < cell.c / ds ∨ r.cell_new.c > cell.c * ds)) →
      refineLoop E cell tol ds (fuel + 1) cur old calls =
        (.error .boxDivergence, calls + 1) := by
    intro E cell tol ds fuel cur old calls r hE hA hB hdiv
    have hD : divergeCheck cell r.cell_new ds r.ecoh = some .boxDivergence :=
      divergeCheck_boxDivergence hdiv
    rw [refineLoop]
    simp only [hE]
    rw [if_neg hA]
    cases old with
    | none => simp only [hD]
    | some o => simp only [if_neg (hB o rfl), hD]
  refine ⟨step, ?_⟩
  intro E cell tol ds r hE hA hdiv
  rw [quick_a_Cij, show (100 : ℕ) = 99 + 1 from rfl]
  exact step E cell tol ds 99 cell none 0 r hE hA (fun o h => nomatch h) hdiv

/-- Witness for C5: an evaluator proposing `a = 10` from the initial unit
cell with a divergence scale of 3 diverges on the first call. -/
theorem C5_divergence_detection_witness :
    evalDiverge boxOne = .ok resultDiverge ∧
    ¬ boxAllclose resultDiverge.cell_new boxOne default_tol ∧
    resultDiverge.cell_new.a > boxOne.a * 3 ∧
    quick_a_Cij evalDiverge boxOne default_tol 3 = (.error .boxDivergence, 1) := by
  have h1 : evalDiverge boxOne = .ok resultDiverge := rfl
  have h2 : ¬ boxAllclose resultDiverge.cell_new boxOne default_tol :=
    not_boxAllclose_left not_isclose_10_1
  have h3 : resultDiverge.cell_new.a > boxOne.a * 3 := by
    show (10 : ℚ) > 1 * 3
    norm_num
  exact ⟨h1, h2, h3, C5_divergence_detection.2 evalDiverge boxOne default_tol 3
    resultDiverge h1 h2 (Or.inl (Or.inr h3))⟩

/-- C8: the symmetrization `Cij[i][j] = Cij[j][i] = (raw[i][j]+raw[j][i])/2`
of any raw 6×6 matrix produces a symmetric matrix, and symmetrizing twice
yields the same result as symmetrizing once. -/
theorem C8_symmetrize_symmetric_idempotent :
    (∀ M : Mat6, Matrix.transpose (symmetrize M) = symmetrize M) ∧
    (∀ M : Mat6, symmetrize (symmetrize M) = symmetrize M) := by
  constructor
  · intro M
    ext i j
    simp only [symmetrize, Matrix.transpose_apply, Matrix.of_apply]
    ring
  · intro M
    ext i j
    simp only [symmetrize, Matrix.of_apply]
    ring

/-- C2: whenever `previous_cell` is set and the evaluator's `next_cell`
matches it within tolerance (while not matching the current cell), the loop
builds the cell whose `a`, `b`, `c` are the arithmetic means of `next_cell`'s
and `previous_cell`'s dimensions, performs exactly one additional evaluator
call at that averaged cell, and returns that re-evaluation's result; and with
an evaluator alternating between two fixed cells `A` and `B`, the two-cycle
is detected within 3 evaluator calls. -/
theorem C2_oscillation_averaging :
    (∀ (E : Box → Except Err CalcResult) (cell : Box) (tol ds : ℚ) (fuel : ℕ)
       (cur o : Box) (calls : ℕ) (r r2 : CalcResult),
       E cur = .ok r →
       ¬ boxAllclose r.cell_new cur tol →
       boxAllclose r.cell_new o tol →
       E (avgBox r.cell_new o) = .ok r2 →
       refineLoop E cell tol ds (fuel + 1) cur (some o) calls = (.ok r2, calls + 2)) ∧
    (∀ (E : Box → Except Err CalcResult) (A B : Box) (tol ds : ℚ) (rB rA : CalcResult),
       0 ≤ tol →
       E A = .ok rB → rB.cell_new = B →
       E B = .ok rA → rA.cell_new = A →
       ¬ boxAllclose B A tol →
       ¬ boxAllclose A B tol →
       divergeCheck A B ds rB.ecoh = none →
       quick_a_Cij E A tol ds = (.ok rB, 3)) := by
  refine ⟨refineLoop_osc_step, ?_⟩
  intro E A B tol ds rB rA htol hEA hBc hEB hAc hBA hAB hD
  have step1 := refineLoop_cont_step E A tol ds 99 A none 0 rB hEA
    (by rw [hBc]; exact hBA) (fun o h => nomatch h) (by rw [hBc]; exact hD)
  have step2 := refineLoop_osc_step E A tol ds 98 B A 1 rA rB hEB
    (by rw [hAc]; exact hAB) (by rw [hAc]; exact boxAllclose_self A tol htol)
    (by rw [hAc, avgBox_self]; exact hEA)
  rw [quick_a_Cij, show (100 : ℕ) = 99 + 1 from rfl, step1, hBc]
  show refineLoop E A tol ds (98 + 1) B (some A) 1 = (.ok rB, 3)
  rw [step2]

/-- Witness for C2: the scripted evaluator alternating between `boxOne` and
`boxB` triggers the oscillation branch and returns after 3 calls in total. -/
theorem C2_oscillation_averaging_witness :
    refineLoop evalOsc boxOne default_tol 3 1 boxB (some boxOne) 0 = (.ok resultToB, 2) ∧
    quick_a_Cij evalOsc boxOne default_tol 3 = (.ok resultToB, 3) := by
  have hne : boxOne ≠ boxB := by
    intro h
    have h2 : (1 : ℚ) = 2 := congrArg Box.a h
    norm_num at h2
  have hEA : evalOsc boxOne = .ok resultToB := by
    simp only [evalOsc]
    rw [if_neg hne]
  have hEB : evalOsc boxB = .ok resultToA := by
    simp only [evalOsc, if_pos]
  have hBA : ¬ boxAllclose boxB boxOne default_tol :=
    not_boxAllclose_left not_isclose_2_1
  have hAB : ¬ boxAllclose boxOne boxB default_tol :=
    not_boxAllclose_left not_isclose_1_2
  have htol : (0 : ℚ) ≤ default_tol := by norm_num [default_tol]
  have hD : divergeCheck boxOne boxB 3 resultToB.ecoh = none := by
    refine divergeCheck_eq_none ?_ ?_ ?_ ?_
    · show ¬((2 : ℚ) < 1 / 3 ∨ (2 : ℚ) > 1 * 3)
      norm_num
    · show ¬((1 : ℚ) < 1 / 3 ∨ (1 : ℚ) > 1 * 3)
      norm_num
    · show ¬((1 : ℚ) < 1 / 3 ∨ (1 : ℚ) > 1 * 3)
      norm_num
    · show ¬(1 : ℚ) = 0
      norm_num
  constructor
  · exact C2_oscillation_averaging.1 evalOsc boxOne default_tol 3 0 boxB boxOne 0
      resultToA resultToB hEB (not_boxAllclose_left not_isclose_1_2)
      (boxAllclose_self boxOne default_tol htol)
      (by rw [show resultToA.cell_new = boxOne from rfl, avgBox_self]; exact hEA)
  · exact C2_oscillation_averaging.2 evalOsc boxOne boxB default_tol 3
      resultToB resultToA htol hEA rfl hEB rfl hBA hAB hD

/-- If every remaining cycle falls through to the update branch, the loop
exhausts its fuel and raises the non-convergence error, one evaluator call
per cycle. -/
theorem nonconvergence_aux (E : Box → Except Err CalcResult) (cell : Box) (tol ds : ℚ)
    (x : ℕ → Box) (r : ℕ → CalcResult)
    (hE : ∀ k, k < 100 → E (x k) = .ok (r k))
    (hnext : ∀ k, k < 100 → (r k).cell_new = x (k + 1))
    (hA : ∀ k, k < 100 → ¬ boxAllclose (x (k + 1)) (x k) tol)
    (hB : ∀ k, 1 ≤ k → k < 100 → ¬ boxAllclose (x (k + 1)) (x (k - 1)) tol)
    (hD : ∀ k, k < 100 → divergeCheck cell (x (k + 1)) ds (r k).ecoh = none) :
    ∀ (fuel j calls : ℕ), 1 ≤ j → j + fuel = 100 →
      refineLoop E cell tol ds fuel (x j) (some (x (j - 1))) calls =
        (.error .nonConvergence, calls + fuel) := by
  intro fuel
  induction fuel with
  | zero =>
    intro j calls hj hsum
    rw [refineLoop]
    rfl
  | succ fuel ih =>
    intro j calls hj hsum
    have hjlt : j < 100 := by omega
    rw [refineLoop_cont_step E cell tol ds fuel (x j) (some (x (j - 1))) calls (r j)
        (hE j hjlt)
        (by rw [hnext j hjlt]; exact hA j hjlt)
        (by
          rintro o ho
          injection ho with ho
          rw [hnext j hjlt, ← ho]
          exact hB j hj hjlt)
        (by rw [hnext j hjlt]; exact hD j hjlt)]
    rw [hnext j hjlt]
    have h2 := ih (j + 1) (calls + 1) (by omega) (by omega)
    rw [show j + 1 - 1 = j from rfl] at h2
    rw [h2, Prod.mk.injEq]
    exact ⟨rfl, by omega⟩

/-- C4: if across all 100 iterations neither convergence test is satisfied
and no divergence condition triggers, `quick_a_Cij` raises the
non-convergence error after exactly 100 evaluator calls — never before the
cap is reached. -/
theorem C4_nonconvergence (E : Box → Except Err CalcResult) (cell : Box) (tol ds : ℚ)
    (x : ℕ → Box) (r : ℕ → CalcResult)
    (hx0 : x 0 = cell)
    (hE : ∀ k, k < 100 → E (x k) = .ok (r k))
    (hnext : ∀ k, k < 100 → (r k).cell_new = x (k + 1))
    (hA : ∀ k, k < 100 → ¬ boxAllclose (x (k + 1)) (x k) tol)
    (hB : ∀ k, 1 ≤ k → k < 100 → ¬ boxAllclose (x (k + 1)) (x (k - 1)) tol)
    (hD : ∀ k, k < 100 → divergeCheck cell (x (k + 1)) ds (r k).ecoh = none) :
    quick_a_Cij E cell tol ds = (.error .nonConvergence, 100) := by
  subst hx0
  rw [quick_a_Cij, show (100 : ℕ) = 99 + 1 from rfl]
  rw [refineLoop_cont_step E (x 0) tol ds 99 (x 0) none 0 (r 0)
      (hE 0 (by norm_num))
      (by rw [hnext 0 (by norm_num)]; exact hA 0 (by norm_num))
      (fun o h => nomatch h)
      (by rw [hnext 0 (by norm_num)]; exact hD 0 (by norm_num))]
  rw [hnext 0 (by norm_num)]
  have h2 := nonconvergence_aux E (x 0) tol ds x r hE hnext hA hB hD 99 1 1
    (le_refl 1) (by norm_num)
  rw [show (1 : ℕ) - 1 = 0 from rfl] at h2
  rw [h2]

/-- Witness for C4: an evaluator drifting the `a` dimension by `1/1000` per
call never satisfies either convergence test, never leaves the divergence
bounds within 100 cycles, and exhausts the cap after exactly 100 calls. -/
theorem C4_nonconvergence_witness :
    driftSeq 0 = boxOne ∧
    (∀ k, k < 100 → evalDrift (driftSeq k) = .ok (driftRes k)) ∧
    (∀ k, k < 100 → ¬ boxAllclose (driftSeq (k + 1)) (driftSeq k) default_tol) ∧
    (∀ k, 1 ≤ k → k < 100 →
      ¬ boxAllclose (driftSeq (k + 1)) (driftSeq (k - 1)) default_tol) ∧
    (∀ k, k < 100 → divergeCheck boxOne (driftSeq (k + 1)) 3 (driftRes k).ecoh = none) ∧
    quick_a_Cij evalDrift boxOne default_tol 3 = (.error .nonConvergence, 100) := by
  have hx0 : driftSeq 0 = boxOne := by
    simp only [driftSeq, boxOne, Box.mk.injEq]
    norm_num
  have hbox : ∀ k : ℕ,
      Box.mk ((driftSeq k).a + 1 / 1000) (driftSeq k).b (driftSeq k).c = driftSeq (k + 1) := by
    intro k
    simp only [driftSeq, Box.mk.injEq, eq_self_iff_true, and_true]
    push_cast
    ring
  have hE : ∀ k, k < 100 → evalDrift (driftSeq k) = .ok (driftRes k) := by
    intro k hk
    show Except.ok (CalcResult.mk 0 0 1
      (Box.mk ((driftSeq k).a + 1 / 1000) (driftSeq k).b (driftSeq k).c)) = .ok (driftRes k)
    rw [hbox k]
    rfl
  have hnext : ∀ k, k < 100 → (driftRes k).cell_new = driftSeq (k + 1) :=
    fun k hk => rfl
  have hA : ∀ k, k < 100 → ¬ boxAllclose (driftSeq (k + 1)) (driftSeq k) default_tol := by
    intro k hk
    apply not_boxAllclose_left
    intro hcl
    rw [isclose] at hcl
    have hsub : (driftSeq (k + 1)).a - (driftSeq k).a = 1 / 1000 := by
      simp only [driftSeq]
      push_cast
      ring
    have habs : |(driftSeq k).a| = 1 + (k : ℚ) / 1000 := by
      simp only [driftSeq]
      rw [abs_of_nonneg (by positivity)]
    rw [hsub, abs_of_nonneg (by norm_num : (0:ℚ) ≤ 1 / 1000), habs] at hcl
    have hk2 : (k : ℚ) < 100 := by exact_mod_cast hk
    norm_num [np_atol, default_tol] at hcl
    linarith
  have hB : ∀ k, 1 ≤ k → k < 100 →
      ¬ boxAllclose (driftSeq (k + 1)) (driftSeq (k - 1)) default_tol := by
    intro k hk1 hk
    obtain ⟨m, rfl⟩ : ∃ m, k = m + 1 := ⟨k - 1, by omega⟩
    simp only [Nat.add_sub_cancel]
    apply not_boxAllclose_left
    intro hcl
    rw [isclose] at hcl
    have hsub : (driftSeq (m + 1 + 1)).a - (driftSeq m).a = 2 / 1000 := by
      simp only [driftSeq]
      push_cast
      ring
    have habs : |(driftSeq m).a| = 1 + (m : ℚ) / 1000 := by
      simp only [driftSeq]
      rw [abs_of_nonneg (by positivity)]
    rw [hsub, abs_of_nonneg (by norm_num : (0:ℚ) ≤ 2 / 1000), habs] at hcl
    have hm2 : (m : ℚ) < 100 := by
      have : m < 100 := by omega
      exact_mod_cast this
    norm_num [np_atol, default_tol] at hcl
    linarith
  have hD : ∀ k, k < 100 →
      divergeCheck boxOne (driftSeq (k + 1)) 3 (driftRes k).ecoh = none := by
    intro k hk
    have hk2 : (k : ℚ) < 100 := by exact_mod_cast hk
    have hknn : (0 : ℚ) ≤ (k : ℚ) := Nat.cast_nonneg k
    refine divergeCheck_eq_none ?_ ?_ ?_ ?_
    · rw [not_or]
      constructor
      · simp only [driftSeq, boxOne, not_lt]
        push_cast
        linarith
      · simp only [driftSeq, boxOne, gt_iff_lt, not_lt]
        push_cast
        linarith
    · show ¬((1 : ℚ) < 1 / 3 ∨ (1 : ℚ) > 1 * 3)
      norm_num
    · show ¬((1 : ℚ) < 1 / 3 ∨ (1 : ℚ) > 1 * 3)
      norm_num
    · show ¬(1 : ℚ) = 0
      norm_num
  exact ⟨hx0, hE, hA, hB, hD,
    C4_nonconvergence evalDrift boxOne default_tol 3 driftSeq driftRes hx0 hE hnext hA hB hD⟩

/-- C6: `calc_cij` raises an error when the symmetrized stiffness matrix is
(absolutely close to) all-zero, when it is singular so its compliance-matrix
inverse does not exist, or when any computed new cell dimension is `≤ 0`;
and any evaluator error propagates unchanged out of `quick_a_Cij` after the
failing call, with no retry, catching or wrapping. -/
theorem C6_evaluator_errors :
    (∀ (d : ThermoData) (cell : Box) (p_xx p_yy p_zz : ℚ),
       allcloseZero (symmetrize (rawCij d)) →
       calc_cij d cell p_xx p_yy p_zz = .error .cijZero) ∧
    (∀ (d : ThermoData) (cell : Box) (p_xx p_yy p_zz : ℚ),
       ¬ allcloseZero (symmetrize (rawCij d)) →
       (symmetrize (rawCij d)).det = 0 →
       calc_cij d cell p_xx p_yy p_zz = .error .singularC) ∧
    (∀ (d : ThermoData) (cell : Box) (p_xx p_yy p_zz : ℚ) (S : Mat6),
       ¬ allcloseZero (symmetrize (rawCij d)) →
       inv6 (symmetrize (rawCij d)) = some S →
       ((new_dims d cell p_xx p_yy p_zz S).a ≤ 0 ∨
        (new_dims d cell p_xx p_yy p_zz S).b ≤ 0 ∨
        (new_dims d cell p_xx p_yy p_zz S).c ≤ 0) →
       calc_cij d cell p_xx p_yy p_zz = .error .dimNonPositive) ∧
    (∀ (E : Box → Except Err CalcResult) (cell : Box) (tol ds : ℚ) (fuel : ℕ)
       (cur : Box) (old : Option Box) (calls : ℕ) (e : Err),
       E cur = .error e →
       refineLoop E cell tol ds (fuel + 1) cur old calls = (.error e, calls + 1)) ∧
    (∀ (E : Box → Except Err CalcResult) (cell : Box) (tol ds : ℚ) (e : Err),
       E cell = .error e → quick_a_Cij E cell tol ds = (.error e, 1)) := by
  refine ⟨?_, ?_, ?_, ?_, ?_⟩
  · intro d cell p1 p2 p3 h
    simp only [calc_cij]
    rw [if_pos h]
  · intro d cell p1 p2 p3 hnz hdet
    simp only [calc_cij]
    rw [if_neg hnz]
    simp only [inv6]
    rw [if_pos hdet]
  · intro d cell p1 p2 p3 S hnz hinv hdims
    simp only [calc_cij]
    rw [if_neg hnz]
    simp only [hinv]
    rw [if_pos hdims]
  · intro E cell tol ds fuel cur old calls e hE
    rw [refineLoop]
    simp only [hE]
  · intro E cell tol ds e hE
    rw [quick_a_Cij, show (100 : ℕ) = 99 + 1 from rfl, refineLoop]
    simp only [hE]

/-- Witness for C6: concrete thermo data triggering each of the three
`calc_cij` rejections, and an evaluator error surfacing unchanged from
`quick_a_Cij` after one call. -/
theorem C6_evaluator_errors_witness :
    allcloseZero (symmetrize (rawCij dataZero)) ∧
    calc_cij dataZero boxOne 0 0 0 = .error .cijZero ∧
    (¬ allcloseZero (symmetrize (rawCij dataSingular)) ∧
      (symmetrize (rawCij dataSingular)).det = 0 ∧
      calc_cij dataSingular boxOne 0 0 0 = .error .singularC) ∧
    ((new_dims dataId boxOne (-2) 0 0 1).a ≤ 0 ∧
      calc_cij dataId boxOne (-2) 0 0 = .error .dimNonPositive) ∧
    refineLoop evalErr boxOne default_tol 3 50 boxB (some boxOne) 7 =
      (.error .cijZero, 8) ∧
    quick_a_Cij evalErr boxOne default_tol 3 = (.error .cijZero, 1) := by
  have hinv : inv6 (symmetrize (rawCij dataId)) = some 1 := by
    rw [dataId_symmetrize]
    exact inv6_one
  have hdim : (new_dims dataId boxOne (-2) 0 0 1).a = -1 := by
    simp only [new_dims, boxOne, stress0, pressure0, Matrix.of_apply, Matrix.one_apply]
    norm_num [dataId, dataZero, unitInCol, Fin.ext_iff]
  refine ⟨dataZero_allcloseZero,
    C6_evaluator_errors.1 dataZero boxOne 0 0 0 dataZero_allcloseZero,
    ⟨dataSingular_not_allcloseZero, dataSingular_det_zero,
      C6_evaluator_errors.2.1 dataSingular boxOne 0 0 0
        dataSingular_not_allcloseZero dataSingular_det_zero⟩,
    ⟨by rw [hdim]; norm_num,
      C6_evaluator_errors.2.2.1 dataId boxOne (-2) 0 0 1 dataId_not_allcloseZero hinv
        (Or.inl (by rw [hdim]; norm_num))⟩,
    C6_evaluator_errors.2.2.2.1 evalErr boxOne default_tol 3 49 boxB (some boxOne) 7
      .cijZero rfl,
    C6_evaluator_errors.2.2.2.2 evalErr boxOne default_tol 3 .cijZero rfl⟩

/-- C7: when `calc_cij` succeeds, each proposed lattice dimension is
`old_dim / (S[i,0]*s_xx + S[i,1]*s_yy + S[i,2]*s_zz + 1)` where `S` is the
compliance matrix and each effective stress component equals the measured
baseline stress (the simulation pressure with its sign flipped) plus the
requested target stress offset for that axis. -/
theorem C7_new_dim_formula (d : ThermoData) (cell : Box) (p_xx p_yy p_zz : ℚ) (S : Mat6)
    (hnz : ¬ allcloseZero (symmetrize (rawCij d)))
    (hinv : inv6 (symmetrize (rawCij d)) = some S)
    (hpos : ¬((new_dims d cell p_xx p_yy p_zz S).a ≤ 0 ∨
              (new_dims d cell p_xx p_yy p_zz S).b ≤ 0 ∨
              (new_dims d cell p_xx p_yy p_zz S).c ≤ 0)) :
    ∃ r : CalcResult, calc_cij d cell p_xx p_yy p_zz = .ok r ∧
      r.cell_new.a = cell.a / (S 0 0 * (-(d.pxx 0) + p_xx) + S 0 1 * (-(d.pyy 0) + p_yy)
        + S 0 2 * (-(d.pzz 0) + p_zz) + 1) ∧
      r.cell_new.b = cell.b / (S 1 0 * (-(d.pxx 0) + p_xx) + S 1 1 * (-(d.pyy 0) + p_yy)
        + S 1 2 * (-(d.pzz 0) + p_zz) + 1) ∧
      r.cell_new.c = cell.c / (S 2 0 * (-(d.pxx 0) + p_xx) + S 2 1 * (-(d.pyy 0) + p_yy)
        + S 2 2 * (-(d.pzz 0) + p_zz) + 1) := by
  refine ⟨⟨symmetrize (rawCij d), stress0 d, d.peatom 0, new_dims d cell p_xx p_yy p_zz S⟩,
    ?_, ?_, ?_, ?_⟩
  · simp only [calc_cij]
    rw [if_neg hnz]
    simp only [hinv]
    rw [if_neg hpos]
  · show (new_dims d cell p_xx p_yy p_zz S).a = _
    simp only [new_dims, stress0, pressure0, Matrix.of_apply, Fin.val_zero, Fin.val_one,
      Fin.val_two]
  · show (new_dims d cell p_xx p_yy p_zz S).b = _
    simp only [new_dims, stress0, pressure0, Matrix.of_apply, Fin.val_zero, Fin.val_one,
      Fin.val_two]
  · show (new_dims d cell p_xx p_yy p_zz S).c = _
    simp only [new_dims, stress0, pressure0, Matrix.of_apply, Fin.val_zero, Fin.val_one,
      Fin.val_two]

/-- Witness for C7: with the identity compliance matrix and zero pressures
the evaluator succeeds and the returned dimensions satisfy the formula. -/
theorem C7_new_dim_formula_witness :
    ¬ allcloseZero (symmetrize (rawCij dataId)) ∧
    inv6 (symmetrize (rawCij dataId)) = some 1 ∧
    ∃ r : CalcResult, calc_cij dataId boxOne 0 0 0 = .ok r ∧
      r.cell_new.a = boxOne.a / ((1 : Mat6) 0 0 * (-(dataId.pxx 0) + 0)
        + (1 : Mat6) 0 1 * (-(dataId.pyy 0) + 0) + (1 : Mat6) 0 2 * (-(dataId.pzz 0) + 0) + 1) ∧
      r.cell_new.b = boxOne.b / ((1 : Mat6) 1 0 * (-(dataId.pxx 0) + 0)
        + (1 : Mat6) 1 1 * (-(dataId.pyy 0) + 0) + (1 : Mat6) 1 2 * (-(dataId.pzz 0) + 0) + 1) ∧
      r.cell_new.c = boxOne.c / ((1 : Mat6) 2 0 * (-(dataId.pxx 0) + 0)
        + (1 : Mat6) 2 1 * (-(dataId.pyy 0) + 0) + (1 : Mat6) 2 2 * (-(dataId.pzz 0) + 0) + 1) := by
  have hinv : inv6 (symmetrize (rawCij dataId)) = some 1 := by
    rw [dataId_symmetrize]
    exact inv6_one
  have ha : (new_dims dataId boxOne 0 0 0 1).a = 1 := by
    simp only [new_dims, boxOne, stress0, pressure0, Matrix.of_apply, Matrix.one_apply]
    norm_num [dataId, dataZero, unitInCol, Fin.ext_iff]
  have hb : (new_dims dataId boxOne 0 0 0 1).b = 1 := by
    simp only [new_dims, boxOne, stress0, pressure0, Matrix.of_apply, Matrix.one_apply]
    norm_num [dataId, dataZero, unitInCol, Fin.ext_iff]
  have hc : (new_dims dataId boxOne 0 0 0 1).c = 1 := by
    simp only [new_dims, boxOne, stress0, pressure0, Matrix.of_apply, Matrix.one_apply]
    norm_num [dataId, dataZero, unitInCol, Fin.ext_iff]
  have hpos : ¬((new_dims dataId boxOne 0 0 0 1).a ≤ 0 ∨
      (new_dims dataId boxOne 0 0 0 1).b ≤ 0 ∨ (new_dims dataId boxOne 0 0 0 1).c ≤ 0) := by
    rw [ha, hb, hc]
    norm_num
  exact ⟨dataId_not_allcloseZero, hinv,
    C7_new_dim_formula dataId boxOne 0 0 0 1 dataId_not_allcloseZero hinv hpos⟩

/-- C9 counterexample: running the identity-instrumented loop on the
alternating evaluator records an in-place mutation: at the oscillation step
the existing object `2` (the cell carried over from the previous iteration,
holding `boxB`) has its box overwritten by `box_set` with the averaged box
instead of a fresh `UnitCell` being created, contradicting the claim that no
cell carried across iterations is ever mutated in place. -/
theorem C9_no_mutation_counterexample :
    quick_a_CijM evalOsc boxOne default_tol 3 =
      (.ok resultToB, 3, [⟨2, boxB, boxOne⟩]) ∧
    (quick_a_CijM evalOsc boxOne default_tol 3).2.2 ≠ [] := by
  have hne : boxOne ≠ boxB := by
    intro h
    have h2 : (1 : ℚ) = 2 := congrArg Box.a h
    norm_num at h2
  have hEA : evalOsc boxOne = .ok resultToB := by
    simp only [evalOsc]
    rw [if_neg hne]
  have hEB : evalOsc boxB = .ok resultToA := by
    simp only [evalOsc, if_pos]
  have hBA : ¬ boxAllclose boxB boxOne default_tol :=
    not_boxAllclose_left not_isclose_2_1
  have hAB : ¬ boxAllclose boxOne boxB default_tol :=
    not_boxAllclose_left not_isclose_1_2
  have htol : (0 : ℚ) ≤ default_tol := by norm_num [default_tol]
  have hD : divergeCheck boxOne boxB 3 1 = none := by
    refine divergeCheck_eq_none ?_ ?_ ?_ ?_
    · show ¬((2 : ℚ) < 1 / 3 ∨ (2 : ℚ) > 1 * 3)
      norm_num
    · show ¬((1 : ℚ) < 1 / 3 ∨ (1 : ℚ) > 1 * 3)
      norm_num
    · show ¬((1 : ℚ) < 1 / 3 ∨ (1 : ℚ) > 1 * 3)
      norm_num
    · show ¬(1 : ℚ) = 0
      norm_num
  have hmain : quick_a_CijM evalOsc boxOne default_tol 3 =
      (.ok resultToB, 3, [⟨2, boxB, boxOne⟩]) := by
    rw [quick_a_CijM, show (100 : ℕ) = 99 + 1 from rfl, refineLoopM]
    simp only [hEA, resultToB]
    rw [if_neg hBA]
    simp only [hD]
    rw [show (99 : ℕ) = 98 + 1 from rfl, refineLoopM]
    simp only [hEB, resultToA]
    rw [if_neg hAB, if_pos (boxAllclose_self boxOne default_tol htol)]
    simp [avgBox_self, hEA, resultToB]
  refine ⟨hmain, ?_⟩
  rw [hmain]
  exact List.cons_ne_nil _ _

/-- C9 as amended: every candidate cell entering the loop from the evaluator
is a fresh deep-copied instance, and the only in-place mutation of a cell
carried across iterations is the single `box_set` of the oscillation
branch — so at most one mutation event ever occurs in a run (none at all
when convergence test B never fires). -/
theorem C9_no_mutation_amended (E : Box → Except Err CalcResult) (cell : Box)
    (tol ds : ℚ) : ((quick_a_CijM E cell tol ds).2.2).length ≤ 1 := by
  have h := refineLoopM_muts_le E cell tol ds 100 ⟨1, cell⟩ none 2 0 []
  rw [quick_a_CijM]
  simpa using h

/-- C10: `quick_a_Cij` always terminates and invokes the evaluator at most
101 times: each of the at most 100 cycles makes exactly one call, plus the
oscillation branch's single extra re-evaluation. -/
theorem C10_call_bound (E : Box → Except Err CalcResult) (cell : Box) (tol ds : ℚ) :
    (quick_a_Cij E cell tol ds).2 ≤ 101 := by
  have h := refineLoop_calls_le E cell tol ds 100 cell none 0
  rw [quick_a_Cij]
  omega

end IprPy
